import Mathlib

/-!
Shallow embedding of `code.nkcmr.net/async` (src/async.go), a minimal
future/promise library, and proofs of its specified properties.

Modelling conventions:
- Go `error` values become `Option E` (`none` is the nil error).
- A `context.Context`, as observed by `Await`, is its cancellation state:
  `doneErr = some e` means the Done channel is closed and `Err()` returns `e`;
  `doneErr = none` means the context has not fired (`Err()` returns nil).
- The zero value of the Go type parameter `T` is `(default : T)` via
  `Inhabited T`.
- The `done` channel of `syncPromise` is modelled by whether it is closed.
- The atomic `CompareAndSwapInt32` guarded settlement (flag write, result
  store, channel close) is one atomic state transition; reachable states are
  interleavings of whole `resolve`/`reject` calls.
- `Await`'s `select` returns `none` when neither channel is ready (the call
  blocks); a boolean `pick` resolves the nondeterministic branch choice when
  both channels are ready (`true` picks the context branch).
-/

namespace Async

variable {T E : Type}

/-- Go struct `result[T]` of src/async.go: a value paired with an error. -/
structure result (T E : Type) where
  value : T
  err : Option E
deriving Repr, DecidableEq

/-- The cancellation state of a `context.Context` as `Await` observes it. -/
structure Context (E : Type) where
  doneErr : Option E
deriving Repr, DecidableEq

/-- Go struct `syncPromise[T]`: `settled` models the atomic `int32` flag
(`true` is 1), `done` models whether the `done` channel has been closed. -/
structure syncPromise (T E : Type) where
  settled : Bool
  done : Bool
  result : result T E
deriving Repr, DecidableEq

/-- Method `syncPromise.Settled`: `atomic.LoadInt32` of the flag. -/
def syncPromise.Settled (s : syncPromise T E) : Bool :=
  s.settled

/-- Method `syncPromise.Await`: the `select` over `ctx.Done()` and `s.done`.
`none` models the call blocking (neither channel ready); `pick` chooses the
branch when both are ready. The context branch returns the zero value of `T`
and `ctx.Err()`; the done branch returns the stored result. -/
def syncPromise.Await [Inhabited T] (s : syncPromise T E) (ctx : Context E)
    (pick : Bool) : Option (T × Option E) :=
  match ctx.doneErr, s.done with
  | some e, true =>
      some (if pick then ((default : T), some e) else (s.result.value, s.result.err))
  | some e, false => some ((default : T), some e)
  | none, true => some (s.result.value, s.result.err)
  | none, false => none

/-- Method `syncPromise.resolve`: if the CAS from 0 to 1 on the settled flag
succeeds, store `result[T]\x7bvalue: v\x7d` and close the done channel;
otherwise do nothing. -/
def syncPromise.resolve (s : syncPromise T E) (v : T) : syncPromise T E :=
  if s.settled then s
  else { settled := true, done := true, result := { value := v, err := none } }

/-- Method `syncPromise.reject`: if the CAS from 0 to 1 on the settled flag
succeeds, store `result[T]\x7berr: err\x7d` (the value field is the zero value
of `T`) and close the done channel; otherwise do nothing. -/
def syncPromise.reject [Inhabited T] (s : syncPromise T E) (e : E) :
    syncPromise T E :=
  if s.settled then s
  else { settled := true, done := true, result := { value := default, err := some e } }

/-- The promise `NewPromise` returns before its goroutine has settled it:
flag 0, done channel open, zero-valued result. -/
def NewPromise.init (T E : Type) [Inhabited T] : syncPromise T E :=
  { settled := false, done := false, result := { value := default, err := none } }

/-- The body of the goroutine spawned by `NewPromise`, applied once `fn` has
returned the pair `fnRes = (v, err)`: reject when `err` is non-nil, else
resolve with `v`. -/
def NewPromise.complete [Inhabited T] (s : syncPromise T E)
    (fnRes : T × Option E) : syncPromise T E :=
  match fnRes with
  | (_, some e) => s.reject e
  | (v, none) => s.resolve v

/-- `NewPromise fn` run to completion, the supplied `fn` modelled by the pair
it returns. -/
def NewPromise [Inhabited T] (fnRes : T × Option E) : syncPromise T E :=
  NewPromise.complete (NewPromise.init T E) fnRes

/-- Go struct `rp[T]`: a pre-settled promise holding only its result. -/
structure rp (T E : Type) where
  result : result T E
deriving Repr, DecidableEq

/-- Method `rp.Settled`: constantly true. -/
def rp.Settled (_ : rp T E) : Bool :=
  true

/-- Method `rp.Await`: ignores the context entirely and returns the stored
result immediately (no `select`, never blocks). -/
def rp.Await (r : rp T E) (_ : Context E) : T × Option E :=
  (r.result.value, r.result.err)

/-- Function `Resolve`: wrap `v` in an immediately settled promise. -/
def Resolve (E : Type) (v : T) : rp T E :=
  { result := { value := v, err := none } }

/-- Function `Reject`: wrap a non-nil error in an immediately settled promise;
the value field is the zero value of `T`. -/
def Reject (T : Type) [Inhabited T] (e : E) : rp T E :=
  { result := { value := default, err := some e } }

/-- The observable outcome of a call to `All`: the returned slice (nil or the
out slice), the returned error, and whether the derived `cancel` has fired by
the time `All` returns. -/
structure AllResult (T E : Type) where
  values : Option (List T)
  err : Option E
  cancelFired : Bool
deriving Repr, DecidableEq

/-- The receive loop of `All`: `rs` lists, per slot `i`, the pair the waiter
goroutine for promise `i` delivers (`out[i]` and the error it sends on
`errc`); `order` is the completion order in which the loop drains `errc`.
Returns the first non-nil error drained, or `none` if every drained error is
nil. -/
def drainErrs (rs : List (T × Option E)) : List Nat → Option E
  | [] => none
  | i :: rest =>
    match rs[i]? with
    | some (_, some e) => some e
    | _ => drainErrs rs rest

/-- Function `All`, with each waiter's delivered pair in `rs` (slot order) and
the drain order `order`: on the first non-nil error drained it calls the
derived `cancel` and returns `(nil, err)` at once; if all drained errors are
nil it returns the out slice in slot order with a nil error, the deferred
`cancel` firing on return. -/
def All (rs : List (T × Option E)) (order : List Nat) : AllResult T E :=
  match drainErrs rs order with
  | some e => { values := none, err := some e, cancelFired := true }
  | none => { values := some (rs.map Prod.fst), err := none, cancelFired := true }

/-- One internal settlement call on a work-backed promise. -/
inductive SettleOp (T E : Type) where
  | res (v : T)
  | rej (e : E)
deriving Repr, DecidableEq

/-- Apply one settlement call to a promise state. -/
def applyOp [Inhabited T] (s : syncPromise T E) : SettleOp T E → syncPromise T E
  | .res v => s.resolve v
  | .rej e => s.reject e

/-- Apply a sequence of settlement calls, in order. -/
def applyOps [Inhabited T] (s : syncPromise T E) :
    List (SettleOp T E) → syncPromise T E
  | [] => s
  | op :: rest => applyOps (applyOp s op) rest

/-- States of a work-backed promise reachable from the state `NewPromise`
hands out, by any interleaving of internal `resolve`/`reject` calls. -/
inductive Reachable (T E : Type) [Inhabited T] : syncPromise T E → Prop
  | init : Reachable T E (NewPromise.init T E)
  | step {s : syncPromise T E} (op : SettleOp T E) :
      Reachable T E s → Reachable T E (applyOp s op)

/-! ### Helper lemmas -/

theorem applyOp_settled [Inhabited T] (s : syncPromise T E) (op : SettleOp T E) :
    (applyOp s op).settled = true := by
  cases op <;> simp only [applyOp, syncPromise.resolve, syncPromise.reject] <;>
    by_cases h : s.settled <;> simp [h]

theorem applyOp_of_settled [Inhabited T] (s : syncPromise T E)
    (h : s.settled = true) (op : SettleOp T E) : applyOp s op = s := by
  cases op <;> simp [applyOp, syncPromise.resolve, syncPromise.reject, h]

theorem applyOps_of_settled [Inhabited T] (s : syncPromise T E)
    (h : s.settled = true) (ops : List (SettleOp T E)) : applyOps s ops = s := by
  induction ops with
  | nil => rfl
  | cons op rest ih => simp [applyOps, applyOp_of_settled s h op, ih]

theorem reachable_settled_eq_done [Inhabited T] (s : syncPromise T E)
    (hr : Reachable T E s) : s.settled = s.done := by
  induction hr with
  | init => rfl
  | step op _ ih =>
    rename_i t _
    by_cases h : t.settled
    · rw [applyOp_of_settled t h op]
      exact ih
    · cases op <;> simp [applyOp, syncPromise.resolve, syncPromise.reject, h]

theorem await_of_done [Inhabited T] (s : syncPromise T E) (hd : s.done = true)
    (ctx : Context E) (pick : Bool) (hc : ctx.doneErr = none) :
    s.Await ctx pick = some (s.result.value, s.result.err) := by
  simp [syncPromise.Await, hc, hd]

theorem drainErrs_nil (order : List Nat) :
    drainErrs ([] : List (T × Option E)) order = none := by
  induction order with
  | nil => rfl
  | cons i rest ih => simp [drainErrs, ih]

theorem drainErrs_of_no_err (rs : List (T × Option E))
    (h : ∀ r ∈ rs, r.2 = none) (order : List Nat) :
    drainErrs rs order = none := by
  induction order with
  | nil => rfl
  | cons i rest ih =>
    simp only [drainErrs]
    cases hi : rs[i]? with
    | none => simpa [hi] using ih
    | some r =>
      have hmem : r ∈ rs := List.getElem?_mem hi
      have := h r hmem
      obtain ⟨v, e⟩ := r
      simp only at this
      subst this
      simpa [hi] using ih

/-! ### Claim theorems -/

/-- C1. Exactly-once settlement: on a work-backed promise that is not yet
settled, the first `resolve`/`reject` call wins (the settled flag becomes
true), and every subsequent sequence of `resolve`/`reject` calls, with any
values or errors in any order, leaves the whole state — stored result and
settled flag — unchanged. -/
theorem settle_exactly_once [Inhabited T] (s : syncPromise T E)
    (h : s.settled = false) (op : SettleOp T E) (ops : List (SettleOp T E)) :
    (applyOp s op).settled = true ∧ applyOps (applyOp s op) ops = applyOp s op :=
  ⟨applyOp_settled s op, applyOps_of_settled _ (applyOp_settled s op) ops⟩

/-- Witness for C1 at a concrete pending promise, first call `resolve 1`,
followed by `reject 2` then `resolve 3`. -/
theorem settle_exactly_once_witness :
    (applyOp ({ settled := false, done := false, result := { value := 0, err := none } } : syncPromise Nat Nat) (SettleOp.res 1)).settled = true ∧
    applyOps (applyOp ({ settled := false, done := false, result := { value := 0, err := none } } : syncPromise Nat Nat) (SettleOp.res 1)) [SettleOp.rej 2, SettleOp.res 3]
      = applyOp ({ settled := false, done := false, result := { value := 0, err := none } } : syncPromise Nat Nat) (SettleOp.res 1) :=
  settle_exactly_once _ rfl (SettleOp.res 1) [SettleOp.rej 2, SettleOp.res 3]

/-- C2. Cancellation non-mutation: awaiting a still-pending reachable
work-backed promise under an already-fired cancellation signal returns the
cancellation error (paired with the zero value of `T`), and the promise stays
unsettled — `Await` is a pure observer in the embedding, exactly as the Go
`Await` writes no promise field, so no `Await` call can mark a promise
settled. -/
theorem cancellation_non_mutation [Inhabited T] (s : syncPromise T E)
    (hr : Reachable T E s) (hp : s.Settled = false)
    (ctx : Context E) (e : E) (hc : ctx.doneErr = some e) (pick : Bool) :
    s.Await ctx pick = some ((default : T), some e) ∧ s.Settled = false := by
  have hd : s.done = false := by
    have := reachable_settled_eq_done s hr
    simp only [syncPromise.Settled] at hp
    rw [← this]
    exact hp
  refine ⟨?_, hp⟩
  simp [syncPromise.Await, hc, hd]

/-- Witness for C2 at the freshly constructed promise and a context whose
`Err()` is the error 5. -/
theorem cancellation_non_mutation_witness :
    (NewPromise.init Nat Nat).Await { doneErr := some 5 } true = some (0, some 5) ∧
    (NewPromise.init Nat Nat).Settled = false :=
  cancellation_non_mutation _ Reachable.init rfl _ 5 rfl true

/-- C3. All ordering and all-success result: for promises that all settled
successfully, each waiter's `Await` (under the non-fired derived context)
delivers exactly the stored value with a nil error, and `All` over those
delivered pairs returns the values in slot order — slot `i` of the output is
the value of promise `i` — with a nil error, for every completion order. -/
theorem all_success_ordering [Inhabited T] (ps : List (syncPromise T E))
    (hs : ∀ p ∈ ps, p.done = true ∧ p.result.err = none) (order : List Nat) :
    (∀ p ∈ ps, ∀ pick, p.Await { doneErr := none } pick = some (p.result.value, p.result.err)) ∧
    All (ps.map fun p => (p.result.value, p.result.err)) order
      = { values := some (ps.map fun p => p.result.value), err := none, cancelFired := true } := by
  constructor
  · intro p hp pick
    exact await_of_done p (hs p hp).1 _ pick rfl
  · have hno : ∀ r ∈ ps.map fun p => (p.result.value, p.result.err), r.2 = none := by
      intro r hr
      obtain ⟨p, hp, hpr⟩ := List.mem_map.mp hr
      rw [← hpr]
      exact (hs p hp).2
    simp [All, drainErrs_of_no_err _ hno order, List.map_map, Function.comp]

/-- Witness for C3 at two settled promises with values 1 and 2 and the
reversed completion order. -/
theorem all_success_ordering_witness :
    (∀ p ∈ ([{ settled := true, done := true, result := { value := 1, err := none } },
             { settled := true, done := true, result := { value := 2, err := none } }] : List (syncPromise Nat Nat)),
      ∀ pick, p.Await { doneErr := none } pick = some (p.result.value, p.result.err)) ∧
    All (([{ settled := true, done := true, result := { value := 1, err := none } },
           { settled := true, done := true, result := { value := 2, err := none } }] : List (syncPromise Nat Nat)).map
          fun p => (p.result.value, p.result.err)) [1, 0]
      = { values := some (([{ settled := true, done := true, result := { value := 1, err := none } },
                            { settled := true, done := true, result := { value := 2, err := none } }] : List (syncPromise Nat Nat)).map
                           fun p => p.result.value), err := none, cancelFired := true } :=
  all_success_ordering _ (by decide) [1, 0]

/-- C4. All short-circuit: whenever the drain loop meets a non-nil error `e`
(the first error drained from `errc`), `All` calls the derived `cancel` and
returns `(nil, e)` — no partially-filled value slice is ever paired with an
error; moreover when the very first drained waiter reports an error, the
outcome is fixed no matter what the rest of the completion order holds, so no
further waiter is waited on. -/
theorem all_short_circuit [Inhabited T] (rs : List (T × Option E))
    (order : List Nat) (e : E) (h : drainErrs rs order = some e) :
    All rs order = { values := none, err := some e, cancelFired := true } ∧
    ∀ (i : Nat) (v : T) (e2 : E) (rest : List Nat), rs[i]? = some (v, some e2) →
      All rs (i :: rest) = { values := none, err := some e2, cancelFired := true } := by
  constructor
  · simp [All, h]
  · intro i v e2 rest hi
    simp [All, drainErrs, hi]

/-- Witness for C4: waiter 1 delivers error 7 and is drained first; `All`
returns nil values and error 7 even though waiter 0 succeeded. -/
theorem all_short_circuit_witness :
    All [((1 : Nat), (none : Option Nat)), (0, some 7)] [1, 0]
        = { values := none, err := some 7, cancelFired := true } ∧
    ∀ (i : Nat) (v : Nat) (e2 : Nat) (rest : List Nat),
      [((1 : Nat), (none : Option Nat)), (0, some 7)][i]? = some (v, some e2) →
      All [((1 : Nat), (none : Option Nat)), (0, some 7)] (i :: rest)
        = { values := none, err := some e2, cancelFired := true } :=
  all_short_circuit _ [1, 0] 7 rfl

/-- C5. Pre-settled constructors: `Resolve v` and `Reject e` are settled at
construction, and `Await` on them returns `(v, nil)` respectively
`(zero, e)` for every context, an already-cancelled one included — `rp.Await`
never consults the context. -/
theorem pre_settled_constructors [Inhabited T] (v : T) (e : E) (ctx : Context E) :
    (Resolve E v).Settled = true ∧ (Reject T e).Settled = true ∧
    (Resolve E v).Await ctx = (v, none) ∧
    (Reject T e).Await ctx = ((default : T), some e) :=
  ⟨rfl, rfl, rfl, rfl⟩

/-- C6. Settled iff signal published: in every reachable state of a
work-backed promise, `Settled()` is true exactly when the done channel has
been closed; consequently a settled promise's `Await` never blocks (never
returns `none`), for any context and select choice. -/
theorem settled_iff_signal [Inhabited T] (s : syncPromise T E)
    (hr : Reachable T E s) :
    (s.Settled = true ↔ s.done = true) ∧
    (s.Settled = true → ∀ (ctx : Context E) (pick : Bool), s.Await ctx pick ≠ none) := by
  have hsd := reachable_settled_eq_done s hr
  constructor
  · rw [syncPromise.Settled, hsd]
  · intro hst ctx pick
    have hd : s.done = true := by
      rw [← hsd]
      exact hst
    cases hc : ctx.doneErr <;> simp [syncPromise.Await, hc, hd]

/-- Witness for C6 at the promise reached by resolving the fresh state with
the value 3, instantiated at a non-fired context. -/
theorem settled_iff_signal_witness :
    ((applyOp (NewPromise.init Nat Nat) (SettleOp.res 3)).Settled = true ↔
      (applyOp (NewPromise.init Nat Nat) (SettleOp.res 3)).done = true) ∧
    (applyOp (NewPromise.init Nat Nat) (SettleOp.res 3)).Await { doneErr := none } false ≠ none := by
  have h := settled_iff_signal (applyOp (NewPromise.init Nat Nat) (SettleOp.res 3))
    (Reachable.step (SettleOp.res 3) Reachable.init)
  exact ⟨h.1, h.2 rfl _ _⟩

/-- C7. Multi-reader consistency: on a promise whose done channel is closed,
any number of `Await` calls whose cancellation signals have not fired — for
any select choices — all return the one stored result. -/
theorem multi_reader_consistency [Inhabited T] (s : syncPromise T E)
    (hdone : s.done = true) (calls : List (Context E × Bool))
    (hc : ∀ c ∈ calls, c.1.doneErr = none) :
    calls.map (fun c => s.Await c.1 c.2)
      = List.replicate calls.length (some (s.result.value, s.result.err)) := by
  induction calls with
  | nil => rfl
  | cons c rest ih =>
    have hhead := hc c (List.mem_cons_self c rest)
    simp only [List.map_cons, List.length_cons, List.replicate_succ]
    rw [await_of_done s hdone c.1 c.2 hhead]
    rw [ih fun d hd => hc d (List.mem_cons_of_mem c hd)]

/-- Witness for C7: two awaiters, different select choices, both read the
stored result of a promise settled with the value 5. -/
theorem multi_reader_consistency_witness :
    ([({ doneErr := none }, true), ({ doneErr := none }, false)] : List (Context Nat × Bool)).map
        (fun c => ({ settled := true, done := true, result := { value := 5, err := none } } : syncPromise Nat Nat).Await c.1 c.2)
      = List.replicate 2 (some (5, none)) :=
  multi_reader_consistency _ rfl _ (by decide)

/-- C8. All on empty input: with no promises there are no waiters and no
errors to drain, so `All` returns the empty value sequence and a nil error
for every drain order (the model is a total function: nothing blocks). -/
theorem all_empty (T E : Type) (order : List Nat) :
    All ([] : List (T × Option E)) order
      = { values := some [], err := none, cancelFired := true } := by
  simp [All, drainErrs_nil]

/-- C9. NewPromise settlement classification: the goroutine rejects exactly
when `fn`'s error is non-nil — the stored error is always `fn`'s error — and
on a non-nil error the returned value `v` is discarded: the stored result is
the zero value of `T` paired with the error, so `Await` observes
`(zero, e)`, never `v`; on a nil error the stored result is `(v, nil)`. -/
theorem newPromise_classification [Inhabited T] (v : T) (e : E) :
    (NewPromise (v, some e) : syncPromise T E).result
        = { value := (default : T), err := some e } ∧
    (NewPromise (v, none) : syncPromise T E).result = { value := v, err := none } ∧
    (∀ r : T × Option E, (NewPromise r : syncPromise T E).result.err = r.2) ∧
    ∀ pick, (NewPromise (v, some e) : syncPromise T E).Await { doneErr := none } pick
        = some ((default : T), some e) := by
  refine ⟨rfl, rfl, ?_, ?_⟩
  · intro r
    obtain ⟨v', e'⟩ := r
    cases e' <;> rfl
  · intro pick
    rfl

/-- C10. Zero value on cancellation: when `Await` returns via the context
branch on a promise whose done channel is still open, the returned value is
exactly the zero value of `T` and the returned error is the context's error;
the value and error are never both meaningful in the same return. -/
theorem zero_value_on_cancellation [Inhabited T] (s : syncPromise T E)
    (hpend : s.done = false) (ctx : Context E) (e : E)
    (hc : ctx.doneErr = some e) (pick : Bool) :
    s.Await ctx pick = some ((default : T), some e) := by
  simp [syncPromise.Await, hc, hpend]

/-- Witness for C10 at a pending promise whose result field holds 9 and a
context carrying the error 4: the 9 is not returned, the zero value 0 is. -/
theorem zero_value_on_cancellation_witness :
    ({ settled := false, done := false, result := { value := 9, err := none } } : syncPromise Nat Nat).Await
        { doneErr := some 4 } false = some (0, some 4) :=
  zero_value_on_cancellation _ rfl _ 4 rfl false

end Async
